import Mathlib

/-!
Verification development for the `pubsub_v1` subscriber client
(`google/cloud/pubsub_v1/subscriber/client.py`) and the streaming-pull
manager contract it exposes.  Python functions are shallowly embedded as
Lean functions; calls whose effects matter (constructing a policy object,
invoking `open`, starting the stream) are recorded in an explicit event
trace so that theorems can speak about which calls happen and in what
order.  Components whose implementation modules are absent from this
slice of the repository (the flow-control type, the streaming pull
manager, the stream supervisor, the dispatcher) are modelled from the
specification and marked as such in their doc comments.
-/

namespace PubsubV1

/-- A Python value as far as `subscribe`'s callback argument is concerned:
`None`, a callable (identified by an opaque id), or some other
non-callable object (carrying its `repr`). -/
inductive PyVal where
  | pyNone
  | callable (id : Nat)
  | other (reprText : String)
deriving DecidableEq

/-- Python's `callable(x)`. -/
def PyVal.isCallable : PyVal → Bool
  | .callable _ => true
  | _ => false

/-- Python's `repr(x)` (only its existence matters; the text is carried
through to the error message as `'{!r}'.format(...)` does). -/
def PyVal.reprText : PyVal → String
  | .pyNone => "None"
  | .callable n => "<function f" ++ toString n ++ ">"
  | .other s => s

/-- Modelled from the spec: `types.FlowControl` (module
`google/cloud/pubsub_v1/types.py` is absent from this slice).  The spec
gives `flowControl = {maxOutstandingMessages: int >=1 (default e.g.
1000), maxOutstandingBytes: int >=0 (default e.g. 100MB, 0 =
unlimited)}`. -/
structure FlowControl where
  maxOutstandingMessages : Nat
  maxOutstandingBytes : Nat
deriving DecidableEq

/-- The documented default flow-control budget: 1000 outstanding
messages, 100MB outstanding bytes. -/
def FlowControl.default : FlowControl :=
  { maxOutstandingMessages := 1000, maxOutstandingBytes := 104857600 }

/-- Modelled from the spec: `types.FlowControl(*flow_control)` — the
positional construction of the flow-control record from the caller's
tuple, fields in the order the spec lists them, missing positions filled
with the defaults. -/
def FlowControl.ofArgs : List Nat → FlowControl
  | [] => FlowControl.default
  | [m] => { maxOutstandingMessages := m,
             maxOutstandingBytes := FlowControl.default.maxOutstandingBytes }
  | m :: b :: _ => { maxOutstandingMessages := m, maxOutstandingBytes := b }

/-! ### Channel construction (`Client.__init__`) and `Client.target` -/

/-- The gRPC channel the client ends up holding.  `insecure` is
`grpc.insecure_channel(target=...)`; `secureDefault` is the
`grpc_helpers.create_channel(credentials, target, scopes, options)` call
with the options dictionary written in the source (unlimited send and
receive message sizes, 30s keepalive); `custom` is a caller-supplied
channel passed through `kwargs`. -/
inductive Channel where
  | insecure (target : String)
  | custom (id : Nat)
  | secureDefault (credentials : Option Nat) (target : String)
      (scopes : List String) (maxSendLen maxRecvLen keepaliveMs : Int)
deriving DecidableEq

def Channel.isInsecure : Channel → Bool
  | .insecure _ => true
  | _ => false

/-- Modelled from the spec: the generated gapic `subscriber_client`
module is absent from this slice; `SERVICE_ADDRESS` is its fixed
class-level service endpoint constant. -/
def SERVICE_ADDRESS : String := "pubsub.googleapis.com:443"

/-- Modelled from the spec: the gapic client's fixed default OAuth
scopes (`SubscriberClient._DEFAULT_SCOPES`), absent from this slice. -/
def DEFAULT_SCOPES : List String :=
  ["https://www.googleapis.com/auth/cloud-platform",
   "https://www.googleapis.com/auth/pubsub"]

/-- Python truthiness of `os.environ.get(name)`: truthy exactly when the
variable is present with a non-empty value. -/
def envTruthy : Option String → Bool
  | Option.none => false
  | Option.some s => !(s == "")

/-- The client state the claims need: the channel chosen by
`Client.__init__`. -/
structure Client where
  channel : Channel
deriving DecidableEq

/-- `Client.__init__`: if `PUBSUB_EMULATOR_HOST` is truthy, overwrite
`kwargs['channel']` with an insecure channel targeting it; then, only if
no channel is in `kwargs`, create the default secure channel from
credentials, `self.target`, the default scopes, and the hard-coded
options. -/
def Client.init (emulatorHost : Option String) (callerChannel : Option Channel)
    (credentials : Option Nat) : Client :=
  let kwargsChannel : Option Channel :=
    if envTruthy emulatorHost then
      Option.some (Channel.insecure (emulatorHost.getD ""))
    else
      callerChannel
  match kwargsChannel with
  | Option.some c => { channel := c }
  | Option.none =>
      { channel := Channel.secureDefault credentials SERVICE_ADDRESS
          DEFAULT_SCOPES (-1) (-1) 30000 }

/-- `Client.target`: returns the gapic class constant, independent of
any instance state. -/
def Client.target (_c : Client) : String := SERVICE_ADDRESS

/-! ### `Client.subscribe` -/

/-- The policy object (`self._policy_class(self, subscription,
flow_control)`) as `subscribe` leaves it: `opened` records whether
`subscr.open(callback)` was invoked on it. -/
structure Policy where
  subscription : String
  flowControl : FlowControl
  opened : Bool
deriving DecidableEq

/-- Observable calls made by `Client.subscribe`. -/
inductive SubEvent where
  | constructPolicy (subscription : String) (flowControl : FlowControl)
  | openCalledOnPolicy (callback : PyVal)
deriving DecidableEq

/-- `Client.subscribe(subscription, callback=None, flow_control=())`:
builds the flow control, constructs the policy, then — in source order —
opens it when the callback is callable, raises `TypeError` when the
callback is neither callable nor `None`, and otherwise returns the
policy unopened.  The result is paired with the trace of calls made. -/
def Client.subscribe (_c : Client) (subscription : String) (callback : PyVal)
    (flowControlArgs : List Nat) : Except String Policy × List SubEvent :=
  let flowControl := FlowControl.ofArgs flowControlArgs
  let subscr : Policy :=
    { subscription := subscription, flowControl := flowControl, opened := false }
  let constructed : List SubEvent := [.constructPolicy subscription flowControl]
  if callback.isCallable then
    (Except.ok { subscr with opened := true },
     constructed ++ [.openCalledOnPolicy callback])
  else if callback ≠ PyVal.pyNone then
    (Except.error (callback.reprText ++ " is not callable, please check input"),
     constructed)
  else
    (Except.ok subscr, constructed)

/-! ### `Client.subscribe_experimental` -/

/-- The streaming pull manager as constructed by
`streaming_pull_manager.StreamingPullManager(self, subscription,
flow_control)`. -/
structure StreamingPullManager where
  subscription : String
  flowControl : FlowControl
deriving DecidableEq

/-- `futures.StreamingPullFuture(manager)`: the returned handle wraps
the manager it was built from. -/
structure StreamingPullFuture where
  manager : StreamingPullManager
deriving DecidableEq

/-- Observable calls made by `Client.subscribe_experimental` and by the
manager's `open`. -/
inductive ExpEvent where
  | constructManager (subscription : String) (flowControl : FlowControl)
  | constructFuture (manager : StreamingPullManager)
  | openCalled (callback : PyVal)
  | streamStarted
deriving DecidableEq

/-- Modelled from the spec: `StreamingPullManager.open(callback)` (the
`streaming_pull_manager` module is absent from this slice) validates
that the callback is invocable and, only then, starts the stream
supervisor; a non-invocable callback fails fast with a descriptive
error. -/
def StreamingPullManager.openOn (_m : StreamingPullManager) (callback : PyVal) :
    Except String Unit × List ExpEvent :=
  if callback.isCallable then
    (Except.ok (), [.streamStarted])
  else
    (Except.error (callback.reprText ++ " is not callable"), [])

/-- `Client.subscribe_experimental(subscription, callback,
flow_control=())`: builds the flow control, constructs the manager,
constructs the future wrapping it, then calls `manager.open(callback)`;
the future is returned only if `open` does not raise. -/
def Client.subscribe_experimental (_c : Client) (subscription : String)
    (callback : PyVal) (flowControlArgs : List Nat) :
    Except String StreamingPullFuture × List ExpEvent :=
  let flowControl := FlowControl.ofArgs flowControlArgs
  let manager : StreamingPullManager :=
    { subscription := subscription, flowControl := flowControl }
  let future : StreamingPullFuture := { manager := manager }
  let (r, openEvents) := manager.openOn callback
  let trace : List ExpEvent :=
    [.constructManager subscription flowControl, .constructFuture manager,
     .openCalled callback] ++ openEvents
  match r with
  | Except.ok _ => (Except.ok future, trace)
  | Except.error e => (Except.error e, trace)

/-! ### Stream supervisor terminal outcome (`wait()` / `result()`) -/

/-- An event observed by the stream supervisor during a run: a transient
stream error (retried with backoff), a permanent error (fatal), or a
batch of received messages. -/
inductive StreamEvent where
  | transientError (e : String)
  | permanentError (e : String)
  | batch (n : Nat)
deriving DecidableEq

/-- The single terminal outcome surfaced by `wait()`/`result()` on the
handle: a clean stop, or the failure that ended the run. -/
inductive TerminalOutcome where
  | completed
  | failed (e : String)
deriving DecidableEq

/-- Modelled from the spec: the stream supervisor's handling of a run's
event sequence (the supervisor module is absent from this slice) —
transient errors are absorbed by reconnect-with-backoff, batches are
forwarded, the first permanent error terminates the run as a failure,
and exhausting the events without a permanent error is a clean stop. -/
def runStream : List StreamEvent → TerminalOutcome
  | [] => TerminalOutcome.completed
  | StreamEvent.transientError _ :: rest => runStream rest
  | StreamEvent.batch _ :: rest => runStream rest
  | StreamEvent.permanentError e :: _ => TerminalOutcome.failed e

/-- `wait()` on the handle returned by `subscribe_experimental`: blocks
until the run is over and returns its terminal outcome. -/
def StreamingPullFuture.wait (_f : StreamingPullFuture)
    (events : List StreamEvent) : TerminalOutcome :=
  runStream events

/-- The first permanent error of an event sequence, if any. -/
def firstPermanentError : List StreamEvent → Option String
  | [] => Option.none
  | StreamEvent.permanentError e :: _ => Option.some e
  | _ :: rest => firstPermanentError rest

/-! ### FlowControlLimiter -/

/-- A received message, as the limiter and the dispatcher see it:
delivery id, byte size, optional ordering key, and publish-order
sequence number. -/
structure Msg where
  deliveryId : String
  size : Nat
  orderingKey : Option String
  seq : Nat
deriving DecidableEq

/-- Remove the first element satisfying `p` from a list, returning it
alongside the remainder (or `none` and the unchanged list). -/
def extractFirst (p : Msg → Bool) : List Msg → Option Msg × List Msg
  | [] => (Option.none, [])
  | m :: rest =>
    if p m then (Option.some m, rest)
    else ((extractFirst p rest).1, m :: (extractFirst p rest).2)

/-- Total byte size of a list of messages, as an integer. -/
def msgBytes (l : List Msg) : Int :=
  (l.map (fun m => (m.size : Int))).sum

/-- Modelled from the spec: the FlowControlLimiter's state (its module
is absent from this slice) — the configured budget, the multiset of
admitted-but-unfinalized messages, and the outstanding count and byte
counters it maintains. -/
structure FlowControlLimiter where
  flowControl : FlowControl
  outstanding : List Msg
  outstandingCount : Int
  outstandingBytes : Int
deriving DecidableEq

def FlowControlLimiter.initial (fc : FlowControl) : FlowControlLimiter :=
  { flowControl := fc, outstanding := [], outstandingCount := 0,
    outstandingBytes := 0 }

/-- Modelled from the spec: `admit(message)` — reserves capacity and
returns `true` when both the count budget and (unless the byte budget is
0, meaning uncapped) the byte budget have headroom; otherwise leaves the
state unchanged and returns `false` (the blocked/refused case). -/
def FlowControlLimiter.admitMsg (l : FlowControlLimiter) (m : Msg) :
    Bool × FlowControlLimiter :=
  if l.outstandingCount + 1 ≤ (l.flowControl.maxOutstandingMessages : Int) ∧
      (l.flowControl.maxOutstandingBytes = 0 ∨
        l.outstandingBytes + (m.size : Int) ≤ (l.flowControl.maxOutstandingBytes : Int)) then
    (true,
     { l with outstanding := l.outstanding ++ [m],
              outstandingCount := l.outstandingCount + 1,
              outstandingBytes := l.outstandingBytes + (m.size : Int) })
  else
    (false, l)

/-- Modelled from the spec: `release(message)` — releases the capacity
held by an admitted message; call sites guarantee a single release per
admitted message, which the model enforces by releasing only a delivery
id currently outstanding (a second release of the same id is a
no-op). -/
def FlowControlLimiter.release (l : FlowControlLimiter) (deliveryId : String) :
    FlowControlLimiter :=
  match extractFirst (fun m => decide (m.deliveryId = deliveryId)) l.outstanding with
  | (Option.none, _) => l
  | (Option.some m, rest) =>
      { l with outstanding := rest,
               outstandingCount := l.outstandingCount - 1,
               outstandingBytes := l.outstandingBytes - (m.size : Int) }

/-- One call in a sequence of limiter operations. -/
inductive LimiterOp where
  | admitOp (m : Msg)
  | releaseOp (deliveryId : String)
deriving DecidableEq

/-- Run a sequence of admit/release calls against the limiter. -/
def FlowControlLimiter.run (l : FlowControlLimiter) : List LimiterOp → FlowControlLimiter
  | [] => l
  | LimiterOp.admitOp m :: rest => ((l.admitMsg m).2).run rest
  | LimiterOp.releaseOp d :: rest => (l.release d).run rest

/-! ### Dispatcher / ordering-key scheduling -/

/-- Modelled from the spec: the dispatcher's scheduling state (its
module is absent from this slice) — messages received from the stream
but not yet handed to the callback (`pending`, in arrival order),
messages whose callback invocation is currently in flight (`inFlight`),
the log of callback invocations in the order they were started
(`dispatchLog`), and the log of arrivals (`receivedLog`). -/
structure DispatchState where
  pending : List Msg
  inFlight : List Msg
  dispatchLog : List Msg
  receivedLog : List Msg
deriving DecidableEq

def DispatchState.initial : DispatchState :=
  { pending := [], inFlight := [], dispatchLog := [], receivedLog := [] }

/-- One scheduling event: a message arrives from the stream; the worker
pool starts the callback for the oldest pending message of an ordering
key (only when no message of that key is in flight); the worker pool
starts the callback for a pending message without an ordering key
(no serialization constraint); a callback finalizes. -/
inductive DispatchOp where
  | receive (m : Msg)
  | startKeyed (k : String)
  | startFree (deliveryId : String)
  | finish (deliveryId : String)
deriving DecidableEq

/-- Modelled from the spec: one dispatcher scheduling step.  Ordering-key
dispatch is FIFO per key and refuses to start while another message of
the same key is in flight; unkeyed dispatch is unconstrained. -/
def DispatchState.step (s : DispatchState) : DispatchOp → DispatchState
  | DispatchOp.receive m =>
      { s with pending := s.pending ++ [m], receivedLog := s.receivedLog ++ [m] }
  | DispatchOp.startKeyed k =>
      match extractFirst (fun m => decide (m.orderingKey = Option.some k)) s.pending with
      | (Option.none, _) => s
      | (Option.some m, rest) =>
          if s.inFlight.any (fun x => decide (x.orderingKey = Option.some k)) then s
          else
            { s with pending := rest, inFlight := s.inFlight ++ [m],
                     dispatchLog := s.dispatchLog ++ [m] }
  | DispatchOp.startFree d =>
      match extractFirst
          (fun m => decide (m.deliveryId = d ∧ m.orderingKey = Option.none)) s.pending with
      | (Option.none, _) => s
      | (Option.some m, rest) =>
          { s with pending := rest, inFlight := s.inFlight ++ [m],
                   dispatchLog := s.dispatchLog ++ [m] }
  | DispatchOp.finish d =>
      match extractFirst (fun m => decide (m.deliveryId = d)) s.inFlight with
      | (Option.none, _) => s
      | (Option.some _, rest) => { s with inFlight := rest }

/-- Run a sequence of scheduling events. -/
def DispatchState.run (s : DispatchState) : List DispatchOp → DispatchState
  | [] => s
  | op :: rest => (s.step op).run rest

/-- The messages of a list carrying ordering key `k`. -/
def keyFilter (k : String) (l : List Msg) : List Msg :=
  l.filter (fun m => decide (m.orderingKey = Option.some k))

/-- Publish order as a relation on messages. -/
def seqLE (a b : Msg) : Prop := a.seq ≤ b.seq

instance : DecidableRel seqLE := fun a b => Nat.decLe a.seq b.seq

/-- Recognizes a `constructManager` event. -/
def isConstructManagerEv : ExpEvent → Bool
  | .constructManager _ _ => true
  | _ => false

/-- Recognizes an `openCalled` event. -/
def isOpenCalledEv : ExpEvent → Bool
  | .openCalled _ => true
  | _ => false

/-- The limiter's invariant under budget `fc`: the counters agree with
the multiset of outstanding messages and respect the budget. -/
def FlowControlLimiter.budgetInv (fc : FlowControl) (l : FlowControlLimiter) : Prop :=
  l.flowControl = fc ∧
  l.outstandingCount = (l.outstanding.length : Int) ∧
  l.outstandingBytes = msgBytes l.outstanding ∧
  l.outstandingCount ≤ (fc.maxOutstandingMessages : Int) ∧
  (fc.maxOutstandingBytes = 0 ∨
    l.outstandingBytes ≤ (fc.maxOutstandingBytes : Int))

/-- The dispatcher's invariant: per ordering key, at most one message is
in flight, and the dispatch log followed by the pending queue is exactly
the arrival log. -/
def DispatchState.schedInv (s : DispatchState) : Prop :=
  (∀ k, (keyFilter k s.inFlight).length ≤ 1) ∧
  (∀ k, keyFilter k s.dispatchLog ++ keyFilter k s.pending =
    keyFilter k s.receivedLog)

/-! ## Theorems -/

/-- C1: `Client.subscribe` raises the descriptive `TypeError` exactly
when the callback is neither `None` nor callable, and `open` is invoked
on the constructed policy exactly when the callback is callable — in
particular, never on the error path. -/
theorem subscribe_raises_iff_callback_not_callable (c : Client) (sub : String)
    (cb : PyVal) (fca : List Nat) :
    ((Client.subscribe c sub cb fca).1 =
        Except.error (cb.reprText ++ " is not callable, please check input") ↔
      (cb ≠ PyVal.pyNone ∧ cb.isCallable = false)) ∧
    (SubEvent.openCalledOnPolicy cb ∈ (Client.subscribe c sub cb fca).2 ↔
      cb.isCallable = true) := by
  cases cb <;> simp [Client.subscribe, PyVal.isCallable, PyVal.reprText]

/-- C8: calling `Client.subscribe` with the default `callback=None`
succeeds, returning the constructed policy unopened, and `open` is never
invoked on it. -/
theorem subscribe_none_callback_returns_unopened (c : Client) (sub : String)
    (fca : List Nat) :
    (Client.subscribe c sub PyVal.pyNone fca).1 =
      Except.ok { subscription := sub, flowControl := FlowControl.ofArgs fca,
                  opened := false } ∧
    SubEvent.openCalledOnPolicy PyVal.pyNone ∉
      (Client.subscribe c sub PyVal.pyNone fca).2 := by
  simp [Client.subscribe, PyVal.isCallable]

/-- C9 (counterexample): with `PUBSUB_EMULATOR_HOST` set to the empty
string — set, but falsy under Python truthiness — the client does not
use an insecure channel at all: it falls through to the credential-based
secure-channel creation path. -/
theorem emulator_host_empty_secure_counterexample :
    (Client.init (Option.some "") Option.none Option.none).channel =
      Channel.secureDefault Option.none SERVICE_ADDRESS DEFAULT_SCOPES
        (-1) (-1) 30000 ∧
    (Client.init (Option.some "") Option.none Option.none).channel.isInsecure =
      false := by
  exact ⟨rfl, rfl⟩

/-- C9 (amended): if `PUBSUB_EMULATOR_HOST` is set to a non-empty value,
the client's channel is the insecure channel targeting that host —
regardless of any caller-supplied channel or credentials — so the
secure-channel creation path is skipped entirely. -/
theorem emulator_host_nonempty_uses_insecure_channel (host : String)
    (h : host ≠ "") (callerChannel : Option Channel) (credentials : Option Nat) :
    (Client.init (Option.some host) callerChannel credentials).channel =
      Channel.insecure host := by
  simp [Client.init, envTruthy, h]

/-- Witness for the amended C9 at a concrete host, caller channel and
credentials. -/
theorem emulator_host_nonempty_witness :
    "localhost:8085" ≠ "" ∧
    (Client.init (Option.some "localhost:8085")
        (Option.some (Channel.custom 7)) (Option.some 3)).channel =
      Channel.insecure "localhost:8085" :=
  ⟨by decide,
   emulator_host_nonempty_uses_insecure_channel "localhost:8085" (by decide)
     (Option.some (Channel.custom 7)) (Option.some 3)⟩

/-- C10: `Client.target` returns the fixed gapic `SERVICE_ADDRESS` for
every constructed client, independent of the emulator environment
variable and of any caller-supplied channel; in particular a client
actually connected to an emulator host still reports the fixed address,
not its real endpoint. -/
theorem target_is_fixed_service_address :
    (∀ (emulatorHost : Option String) (callerChannel : Option Channel)
        (credentials : Option Nat),
      (Client.init emulatorHost callerChannel credentials).target =
        SERVICE_ADDRESS) ∧
    (Client.init (Option.some "localhost:8085") Option.none Option.none).channel =
      Channel.insecure "localhost:8085" ∧
    (Client.init (Option.some "localhost:8085") Option.none Option.none).target ≠
      "localhost:8085" :=
  ⟨fun _ _ _ => rfl, rfl, by decide⟩

/-- C4: with the flow-control argument omitted (the empty tuple), both
`subscribe` and `subscribe_experimental` construct their policy/manager
from the documented default budget, whose limits satisfy the documented
bounds (`maxOutstandingMessages ≥ 1`, `maxOutstandingBytes ≥ 0`). -/
theorem default_flow_control_within_documented_bounds (c : Client)
    (sub : String) (cb : PyVal) :
    SubEvent.constructPolicy sub FlowControl.default ∈
      (Client.subscribe c sub cb []).2 ∧
    ExpEvent.constructManager sub FlowControl.default ∈
      (Client.subscribe_experimental c sub cb []).2 ∧
    1 ≤ FlowControl.default.maxOutstandingMessages ∧
    0 ≤ FlowControl.default.maxOutstandingBytes := by
  cases cb <;>
    simp [Client.subscribe, Client.subscribe_experimental,
      StreamingPullManager.openOn, PyVal.isCallable, FlowControl.ofArgs,
      FlowControl.default]

/-- C2 (counterexample): for a concrete non-callable callback,
`subscribe_experimental` still constructs the manager and still invokes
`open` on it — validation is not performed at the `subscribe_experimental`
level before construction. -/
theorem subscribe_experimental_noncallable_still_opens :
    ExpEvent.constructManager "projects/p/subscriptions/s" FlowControl.default ∈
      (Client.subscribe_experimental { channel := Channel.custom 0 }
        "projects/p/subscriptions/s" (PyVal.other "<Foo object>") []).2 ∧
    ExpEvent.openCalled (PyVal.other "<Foo object>") ∈
      (Client.subscribe_experimental { channel := Channel.custom 0 }
        "projects/p/subscriptions/s" (PyVal.other "<Foo object>") []).2 := by
  exact ⟨by decide, by decide⟩

/-- C2 (amended): `subscribe_experimental` constructs the manager and
invokes `open(callback)` unconditionally; the validation lives in the
manager's `open`, which rejects a non-callable callback with a
descriptive error that propagates to the call site before the stream
supervisor is ever started. -/
theorem subscribe_experimental_noncallable_error_before_stream (c : Client)
    (sub : String) (cb : PyVal) (fca : List Nat)
    (h : cb.isCallable = false) :
    (Client.subscribe_experimental c sub cb fca).1 =
      Except.error (cb.reprText ++ " is not callable") ∧
    ExpEvent.openCalled cb ∈ (Client.subscribe_experimental c sub cb fca).2 ∧
    ExpEvent.streamStarted ∉ (Client.subscribe_experimental c sub cb fca).2 := by
  simp [Client.subscribe_experimental, StreamingPullManager.openOn, h]

/-- Witness for the amended C2 at a concrete non-callable callback. -/
theorem subscribe_experimental_noncallable_witness :
    PyVal.isCallable (PyVal.other "42") = false ∧
    ((Client.subscribe_experimental { channel := Channel.custom 0 } "s"
        (PyVal.other "42") []).1 =
      Except.error ((PyVal.other "42").reprText ++ " is not callable") ∧
    ExpEvent.openCalled (PyVal.other "42") ∈
      (Client.subscribe_experimental { channel := Channel.custom 0 } "s"
        (PyVal.other "42") []).2 ∧
    ExpEvent.streamStarted ∉
      (Client.subscribe_experimental { channel := Channel.custom 0 } "s"
        (PyVal.other "42") []).2) :=
  ⟨by decide,
   subscribe_experimental_noncallable_error_before_stream
     { channel := Channel.custom 0 } "s" (PyVal.other "42") [] (by decide)⟩

/-- C3 (counterexample): at a concrete non-callable callback (`None`),
`subscribe_experimental` does not return a `StreamingPullFuture`: the
error raised inside `open` propagates before the `return`. -/
theorem subscribe_experimental_no_future_on_noncallable :
    (Client.subscribe_experimental { channel := Channel.custom 0 }
        "projects/p/subscriptions/s2" PyVal.pyNone []).1 =
      Except.error "None is not callable" ∧
    ((Client.subscribe_experimental { channel := Channel.custom 0 }
        "projects/p/subscriptions/s2" PyVal.pyNone []).1).isOk = false := by
  exact ⟨rfl, rfl⟩

/-- C3 (amended): for every callable callback, `subscribe_experimental`
constructs exactly one `StreamingPullManager` from the subscription and
flow-control budget, calls `open(callback)` on it exactly once, and
returns the `StreamingPullFuture` wrapping that same manager. -/
theorem subscribe_experimental_constructs_opens_once_returns_future
    (c : Client) (sub : String) (cb : PyVal) (fca : List Nat)
    (h : cb.isCallable = true) :
    (Client.subscribe_experimental c sub cb fca).1 =
      Except.ok { manager := { subscription := sub,
                               flowControl := FlowControl.ofArgs fca } } ∧
    (Client.subscribe_experimental c sub cb fca).2 =
      [ExpEvent.constructManager sub (FlowControl.ofArgs fca),
       ExpEvent.constructFuture
         { subscription := sub, flowControl := FlowControl.ofArgs fca },
       ExpEvent.openCalled cb, ExpEvent.streamStarted] ∧
    ((Client.subscribe_experimental c sub cb fca).2.countP
      isConstructManagerEv) = 1 ∧
    ((Client.subscribe_experimental c sub cb fca).2.countP isOpenCalledEv) = 1 := by
  simp [Client.subscribe_experimental, StreamingPullManager.openOn, h,
    List.countP_cons, isConstructManagerEv, isOpenCalledEv]

/-- Witness for the amended C3 at a concrete callable callback. -/
theorem subscribe_experimental_happy_path_witness :
    PyVal.isCallable (PyVal.callable 3) = true ∧
    ((Client.subscribe_experimental { channel := Channel.custom 0 } "s3"
        (PyVal.callable 3) [5, 7]).1 =
      Except.ok { manager := { subscription := "s3",
                               flowControl := FlowControl.ofArgs [5, 7] } } ∧
    (Client.subscribe_experimental { channel := Channel.custom 0 } "s3"
        (PyVal.callable 3) [5, 7]).2 =
      [ExpEvent.constructManager "s3" (FlowControl.ofArgs [5, 7]),
       ExpEvent.constructFuture
         { subscription := "s3", flowControl := FlowControl.ofArgs [5, 7] },
       ExpEvent.openCalled (PyVal.callable 3), ExpEvent.streamStarted] ∧
    ((Client.subscribe_experimental { channel := Channel.custom 0 } "s3"
        (PyVal.callable 3) [5, 7]).2.countP isConstructManagerEv) = 1 ∧
    ((Client.subscribe_experimental { channel := Channel.custom 0 } "s3"
        (PyVal.callable 3) [5, 7]).2.countP isOpenCalledEv) = 1) :=
  ⟨by decide,
   subscribe_experimental_constructs_opens_once_returns_future
     { channel := Channel.custom 0 } "s3" (PyVal.callable 3) [5, 7] (by decide)⟩

/-- Helper: a run's terminal outcome is determined by its first
permanent error — completed when there is none, failed with exactly that
error otherwise. -/
theorem runStream_eq_firstPermanent (events : List StreamEvent) :
    runStream events =
      (firstPermanentError events).elim TerminalOutcome.completed
        TerminalOutcome.failed := by
  induction events with
  | nil => rfl
  | cons ev rest ih => cases ev <;> simp [runStream, firstPermanentError, ih]

/-- Helper: a successful `extractFirst` call splits the list around the
first element satisfying the predicate. -/
theorem extractFirst_some_decomp (p : Msg → Bool) (l : List Msg) :
    ∀ (l' : List Msg) (m : Msg), extractFirst p l = (Option.some m, l') →
      p m = true ∧ ∃ l₁ l₂, l = l₁ ++ m :: l₂ ∧ l' = l₁ ++ l₂ ∧
        ∀ x ∈ l₁, p x = false := by
  induction l with
  | nil => intro l' m h; simp [extractFirst] at h
  | cons a rest ih =>
    intro l' m h
    by_cases hpa : p a = true
    · rw [extractFirst, if_pos hpa] at h
      obtain ⟨hm, hl⟩ := Prod.mk.injEq .. ▸ h
      obtain rfl := Option.some.inj hm
      exact ⟨hpa, [], rest, rfl, hl.symm, by simp⟩
    · rw [extractFirst, if_neg hpa] at h
      obtain ⟨h1, h2⟩ := Prod.mk.injEq .. ▸ h
      have hr : extractFirst p rest = (Option.some m, (extractFirst p rest).2) := by
        rw [← h1]
      obtain ⟨hpm, l₁, l₂, hrest, hl', hfalse⟩ := ih _ m hr
      refine ⟨hpm, a :: l₁, l₂, by rw [hrest]; rfl, ?_, ?_⟩
      · rw [← h2, hl']; rfl
      · intro x hx
        rcases List.mem_cons.mp hx with rfl | hx
        · exact Bool.not_eq_true (p x) ▸ hpa
        · exact hfalse x hx

/-- Helper: byte total of an appended list. -/
theorem msgBytes_append (a b : List Msg) :
    msgBytes (a ++ b) = msgBytes a + msgBytes b := by
  simp [msgBytes]

/-- Helper: byte total of a cons. -/
theorem msgBytes_cons (m : Msg) (l : List Msg) :
    msgBytes (m :: l) = (m.size : Int) + msgBytes l := by
  simp [msgBytes]

/-- Helper: byte totals are non-negative. -/
theorem msgBytes_nonneg (l : List Msg) : 0 ≤ msgBytes l := by
  induction l with
  | nil => simp [msgBytes]
  | cons m rest ih =>
    rw [msgBytes_cons]
    have : (0 : Int) ≤ (m.size : Int) := Int.natCast_nonneg _
    omega

/-- Helper: the limiter starts inside its budget. -/
theorem initial_budgetInv (fc : FlowControl) :
    (FlowControlLimiter.initial fc).budgetInv fc := by
  refine ⟨rfl, by simp [FlowControlLimiter.initial], ?_, ?_, ?_⟩
  · simp [FlowControlLimiter.initial, msgBytes]
  · simp [FlowControlLimiter.initial]
  · exact Or.inr (by simp [FlowControlLimiter.initial])

/-- Helper: `admit` preserves the budget invariant. -/
theorem admitMsg_preserves_budgetInv (fc : FlowControl) (l : FlowControlLimiter)
    (m : Msg) (h : l.budgetInv fc) : ((l.admitMsg m).2).budgetInv fc := by
  obtain ⟨hfc, hcount, hbytes, hcmax, hbmax⟩ := h
  unfold FlowControlLimiter.admitMsg
  split
  next hc =>
    rw [hfc] at hc
    obtain ⟨hc1, hc2⟩ := hc
    refine ⟨hfc, ?_, ?_, hc1, ?_⟩
    · simp only [List.length_append, List.length_cons, List.length_nil]
      push_cast
      omega
    · rw [msgBytes_append, ← hbytes]
      simp [msgBytes]
    · rcases hc2 with hz | hle
      · exact Or.inl hz
      · exact Or.inr hle
  next => exact ⟨hfc, hcount, hbytes, hcmax, hbmax⟩

/-- Helper: `release` preserves the budget invariant. -/
theorem release_preserves_budgetInv (fc : FlowControl) (l : FlowControlLimiter)
    (d : String) (h : l.budgetInv fc) : (l.release d).budgetInv fc := by
  obtain ⟨hfc, hcount, hbytes, hcmax, hbmax⟩ := h
  unfold FlowControlLimiter.release
  split
  next => exact ⟨hfc, hcount, hbytes, hcmax, hbmax⟩
  next m rest heq =>
    obtain ⟨-, l₁, l₂, hl, hrest, -⟩ :=
      extractFirst_some_decomp _ l.outstanding rest m heq
    have e1 : l.outstanding.length = l₁.length + l₂.length + 1 := by
      rw [hl]; simp; omega
    have e2 : rest.length = l₁.length + l₂.length := by
      rw [hrest]; simp
    have e3 : msgBytes l.outstanding = msgBytes l₁ + ((m.size : Int) + msgBytes l₂) := by
      rw [hl, msgBytes_append, msgBytes_cons]
    have e4 : msgBytes rest = msgBytes l₁ + msgBytes l₂ := by
      rw [hrest, msgBytes_append]
    have hsz : (0 : Int) ≤ (m.size : Int) := Int.natCast_nonneg _
    refine ⟨hfc, ?_, ?_, ?_, ?_⟩
    · simp only []
      rw [hcount, e1, e2]
      push_cast
      omega
    · simp only []
      rw [hbytes, e3, e4]
      omega
    · simp only []
      omega
    · rcases hbmax with hz | hle
      · exact Or.inl hz
      · refine Or.inr ?_
        simp only []
        omega

/-- Helper: running any sequence of admit/release calls preserves the
budget invariant. -/
theorem run_preserves_budgetInv (fc : FlowControl) (ops : List LimiterOp) :
    ∀ l : FlowControlLimiter, l.budgetInv fc → (l.run ops).budgetInv fc := by
  induction ops with
  | nil => intro l h; exact h
  | cons op rest ih =>
    intro l h
    cases op with
    | admitOp m => exact ih _ (admitMsg_preserves_budgetInv fc l m h)
    | releaseOp d => exact ih _ (release_preserves_budgetInv fc l d h)

/-- C6: over every sequence of admit/release calls, the limiter's
outstanding message count and outstanding byte total stay non-negative
and never exceed the configured maxima (the byte maximum whenever the
byte budget is non-zero, 0 meaning uncapped). -/
theorem flow_limiter_never_exceeds_budget_nor_negative (fc : FlowControl)
    (ops : List LimiterOp) :
    0 ≤ ((FlowControlLimiter.initial fc).run ops).outstandingCount ∧
    0 ≤ ((FlowControlLimiter.initial fc).run ops).outstandingBytes ∧
    ((FlowControlLimiter.initial fc).run ops).outstandingCount ≤
      (fc.maxOutstandingMessages : Int) ∧
    (fc.maxOutstandingBytes = 0 ∨
      ((FlowControlLimiter.initial fc).run ops).outstandingBytes ≤
        (fc.maxOutstandingBytes : Int)) := by
  obtain ⟨-, hcount, hbytes, hcmax, hbmax⟩ :=
    run_preserves_budgetInv fc ops _ (initial_budgetInv fc)
  refine ⟨?_, ?_, hcmax, hbmax⟩
  · rw [hcount]; exact Int.natCast_nonneg _
  · rw [hbytes]; exact msgBytes_nonneg _

/-- Helper: filtering with the extraction predicate itself isolates the
extracted element in front of the remainder's filtrate. -/
theorem extractFirst_filter_self (p : Msg → Bool) (l l' : List Msg) (m : Msg)
    (h : extractFirst p l = (Option.some m, l')) :
    l.filter p = m :: l'.filter p := by
  obtain ⟨hpm, l₁, l₂, hl, hl', hfalse⟩ := extractFirst_some_decomp p l l' m h
  have hnil : l₁.filter p = [] :=
    List.filter_eq_nil_iff.mpr (fun a ha => by simp [hfalse a ha])
  rw [hl, hl', List.filter_append, List.filter_append, hnil,
    List.filter_cons_of_pos hpm]
  simp

/-- Helper: filtering with a predicate the extracted element fails is
unchanged by the extraction. -/
theorem extractFirst_filter_other (p q : Msg → Bool) (l l' : List Msg) (m : Msg)
    (h : extractFirst p l = (Option.some m, l')) (hq : q m = false) :
    l.filter q = l'.filter q := by
  obtain ⟨-, l₁, l₂, hl, hl', -⟩ := extractFirst_some_decomp p l l' m h
  rw [hl, hl', List.filter_append, List.filter_append,
    List.filter_cons_of_neg (by simp [hq])]

/-- Helper: the remainder of an extraction is a sublist of the original
list. -/
theorem extractFirst_sublist (p : Msg → Bool) (l l' : List Msg) (m : Msg)
    (h : extractFirst p l = (Option.some m, l')) : l'.Sublist l := by
  obtain ⟨-, l₁, l₂, hl, hl', -⟩ := extractFirst_some_decomp p l l' m h
  rw [hl, hl']
  exact (List.sublist_cons_self m l₂).append_left l₁

/-- Helper: `keyFilter` distributes over append. -/
theorem keyFilter_append (k : String) (a b : List Msg) :
    keyFilter k (a ++ b) = keyFilter k a ++ keyFilter k b :=
  List.filter_append a b

/-- Helper: appending a message of the key keeps it in the filtrate. -/
theorem keyFilter_append_single_eq (k : String) (l : List Msg) (m : Msg)
    (h : m.orderingKey = Option.some k) :
    keyFilter k (l ++ [m]) = keyFilter k l ++ [m] := by
  rw [keyFilter_append]
  simp [keyFilter, h]

/-- Helper: appending a message of a different key (or no key) leaves
the filtrate unchanged. -/
theorem keyFilter_append_single_ne (k : String) (l : List Msg) (m : Msg)
    (h : ¬ m.orderingKey = Option.some k) :
    keyFilter k (l ++ [m]) = keyFilter k l := by
  rw [keyFilter_append]
  simp [keyFilter, h]

/-- Helper: every dispatcher step preserves the scheduling invariant. -/
theorem step_preserves_schedInv (s : DispatchState) (op : DispatchOp)
    (h : s.schedInv) : (s.step op).schedInv := by
  obtain ⟨h1, h2⟩ := h
  cases op with
  | receive m =>
    constructor
    · intro k
      simpa [DispatchState.step] using h1 k
    · intro k
      simp only [DispatchState.step]
      rw [keyFilter_append, ← List.append_assoc, h2 k, keyFilter_append]
  | startKeyed k0 =>
    simp only [DispatchState.step]
    split
    next => exact ⟨h1, h2⟩
    next m rest heq =>
      split
      next => exact ⟨h1, h2⟩
      next hAny =>
        have hkey : m.orderingKey = Option.some k0 :=
          of_decide_eq_true (extractFirst_some_decomp _ _ _ _ heq).1
        have hflight : keyFilter k0 s.inFlight = [] :=
          List.filter_eq_nil_iff.mpr (fun a ha hpa =>
            hAny (List.any_eq_true.mpr ⟨a, ha, hpa⟩))
        constructor
        · intro k
          by_cases hk : k = k0
          · subst hk
            rw [keyFilter_append_single_eq _ _ _ hkey, hflight]
            simp
          · rw [keyFilter_append_single_ne _ _ _
              (by rw [hkey]; exact fun hc => hk (Option.some.inj hc).symm)]
            exact h1 k
        · intro k
          by_cases hk : k = k0
          · subst hk
            have hpend : keyFilter k s.pending = m :: keyFilter k rest :=
              extractFirst_filter_self _ s.pending rest m heq
            rw [keyFilter_append_single_eq _ _ _ hkey, ← h2 k, hpend]
            simp
          · have hqm : decide (m.orderingKey = Option.some k) = false :=
              decide_eq_false (by
                rw [hkey]; exact fun hc => hk (Option.some.inj hc).symm)
            have hpend : keyFilter k s.pending = keyFilter k rest :=
              extractFirst_filter_other _ _ s.pending rest m heq hqm
            rw [keyFilter_append_single_ne _ _ _
                (by rw [hkey]; exact fun hc => hk (Option.some.inj hc).symm),
              ← hpend]
            exact h2 k
  | startFree d =>
    simp only [DispatchState.step]
    split
    next => exact ⟨h1, h2⟩
    next m rest heq =>
      have hkey : m.orderingKey = Option.none :=
        (of_decide_eq_true (extractFirst_some_decomp _ _ _ _ heq).1).2
      constructor
      · intro k
        rw [keyFilter_append_single_ne _ _ _
          (by rw [hkey]; exact fun hc => Option.noConfusion hc)]
        exact h1 k
      · intro k
        have hqm : decide (m.orderingKey = Option.some k) = false :=
          decide_eq_false (by rw [hkey]; exact fun hc => Option.noConfusion hc)
        have hpend : keyFilter k s.pending = keyFilter k rest :=
          extractFirst_filter_other _ _ s.pending rest m heq hqm
        rw [keyFilter_append_single_ne _ _ _
            (by rw [hkey]; exact fun hc => Option.noConfusion hc),
          ← hpend]
        exact h2 k
  | finish d =>
    simp only [DispatchState.step]
    split
    next => exact ⟨h1, h2⟩
    next m rest heq =>
      refine ⟨fun k => ?_, h2⟩
      have hsub : rest.Sublist s.inFlight := extractFirst_sublist _ _ _ _ heq
      exact le_trans (hsub.filter _).length_le (h1 k)

/-- Helper: running any event sequence preserves the scheduling
invariant. -/
theorem runDispatch_preserves_schedInv (ops : List DispatchOp) :
    ∀ s : DispatchState, s.schedInv → (s.run ops).schedInv := by
  induction ops with
  | nil => exact fun _ h => h
  | cons op rest ih => exact fun s h => ih _ (step_preserves_schedInv s op h)

/-- Helper: the empty dispatcher state satisfies the invariant. -/
theorem initial_schedInv : DispatchState.initial.schedInv := by
  constructor <;> intro k <;> simp [DispatchState.initial, keyFilter]

/-- C7: over every scheduling run in which each ordering key's messages
arrive in publish order, the messages of a key are handed to the
callback in non-decreasing publish-order sequence, and at most one
message per ordering key is ever in flight (so two callback invocations
for the same key never overlap). -/
theorem dispatcher_ordering_key_serial_and_in_order (ops : List DispatchOp)
    (k : String)
    (hArrival : List.Pairwise seqLE
      (keyFilter k ((DispatchState.initial.run ops).receivedLog))) :
    (keyFilter k ((DispatchState.initial.run ops).inFlight)).length ≤ 1 ∧
    List.Pairwise seqLE
      (keyFilter k ((DispatchState.initial.run ops).dispatchLog)) := by
  obtain ⟨h1, h2⟩ := runDispatch_preserves_schedInv ops _ initial_schedInv
  refine ⟨h1 k, ?_⟩
  have hsub : (keyFilter k ((DispatchState.initial.run ops).dispatchLog)).Sublist
      (keyFilter k ((DispatchState.initial.run ops).receivedLog)) := by
    rw [← h2 k]
    exact List.sublist_append_left _ _
  exact List.Pairwise.sublist hsub hArrival

/-- Witness for C7 on a concrete run: two messages of key `"k"` arrive
in publish order, the first is dispatched and finalized, then the second
is dispatched. -/
theorem dispatcher_ordering_key_witness :
    List.Pairwise seqLE (keyFilter "k"
      ((DispatchState.initial.run
        [DispatchOp.receive ⟨"m1", 3, Option.some "k", 1⟩,
         DispatchOp.receive ⟨"m2", 4, Option.some "k", 2⟩,
         DispatchOp.startKeyed "k", DispatchOp.finish "m1",
         DispatchOp.startKeyed "k"]).receivedLog)) ∧
    ((keyFilter "k" ((DispatchState.initial.run
        [DispatchOp.receive ⟨"m1", 3, Option.some "k", 1⟩,
         DispatchOp.receive ⟨"m2", 4, Option.some "k", 2⟩,
         DispatchOp.startKeyed "k", DispatchOp.finish "m1",
         DispatchOp.startKeyed "k"]).inFlight)).length ≤ 1 ∧
     List.Pairwise seqLE (keyFilter "k" ((DispatchState.initial.run
        [DispatchOp.receive ⟨"m1", 3, Option.some "k", 1⟩,
         DispatchOp.receive ⟨"m2", 4, Option.some "k", 2⟩,
         DispatchOp.startKeyed "k", DispatchOp.finish "m1",
         DispatchOp.startKeyed "k"]).dispatchLog))) :=
  ⟨by decide,
   dispatcher_ordering_key_serial_and_in_order
     [DispatchOp.receive ⟨"m1", 3, Option.some "k", 1⟩,
      DispatchOp.receive ⟨"m2", 4, Option.some "k", 2⟩,
      DispatchOp.startKeyed "k", DispatchOp.finish "m1",
      DispatchOp.startKeyed "k"] "k" (by decide)⟩

/-- C5: `wait()` on the handle surfaces exactly one terminal outcome —
completed on a clean stop, or the first permanent error of the run — and
transient (retried) stream errors never change the surfaced outcome. -/
theorem wait_surfaces_single_terminal_outcome (f : StreamingPullFuture)
    (events : List StreamEvent) (e : String) :
    f.wait events =
      (firstPermanentError events).elim TerminalOutcome.completed
        TerminalOutcome.failed ∧
    f.wait (StreamEvent.transientError e :: events) = f.wait events := by
  exact ⟨runStream_eq_firstPermanent events, rfl⟩

end PubsubV1
